import Mathlib

/-!
# PDFHOUSE: manifest resolution and section merging

A shallow embedding of `src/Pages/PDFViewer.jsx`: the helper `parseSections`
and the effect body `loadPDFs` of the `PDFViewer` component, followed by the
properties of the path construction, the section flattening and the
load/merge state machine.

Conventions of the embedding

* A JavaScript string is a Lean `String`; character-level operations go
  through its list of characters.
* `String.prototype.toLowerCase` and `String.prototype.toUpperCase` are
  engine built-ins (Unicode aware).  The development is parametric in them
  (`StringOps`); `asciiOps` is the instance used to evaluate concrete
  inputs, and agrees with the engine on ASCII text.
* A loaded manifest is a JSON value (`Json`).  An object is represented by
  its entries in the order the manifest declares them, with distinct keys;
  `Object.entries` enumerates them in own-property order (`ownEntries`):
  the array-index keys first, in ascending numeric order, then the other keys
  in declaration order.
* A thrown exception is an `Except.error`; the selector fields are strings
  or `undefined` (`Option String`).
-/

namespace PDFHouse

/-! ## Values -/

/-- A JSON value as delivered by a manifest module (`module.default`). The
component never inspects the payload of a number; integers stand for all
numbers. -/
inductive Json where
  | null : Json
  | bool (b : Bool) : Json
  | num (n : Int) : Json
  | str (s : String) : Json
  | arr (items : List Json) : Json
  | obj (entries : List (String × Json)) : Json

/-- An exception object: the two kinds the component can meet. Every thrown
value is taken to be such an object, so that reading `err.message` in the
`catch` block succeeds. -/
inductive JsError where
  | typeError (message : String) : JsError
  | error (message : String) : JsError

/-- The object literal `{ title, docs }` built by `parseSections`. -/
structure Section where
  title : String
  docs : Json

/-- The two case conversions of the string prototype. -/
structure StringOps where
  toLowerCase : String → String
  toUpperCase : String → String

/-- ASCII lower-casing of one character. -/
def asciiLowerChar (c : Char) : Char :=
  if 65 ≤ c.toNat ∧ c.toNat ≤ 90 then Char.ofNat (c.toNat + 32) else c

/-- ASCII upper-casing of one character. -/
def asciiUpperChar (c : Char) : Char :=
  if 97 ≤ c.toNat ∧ c.toNat ≤ 122 then Char.ofNat (c.toNat - 32) else c

/-- The case conversions restricted to ASCII letters. -/
def asciiOps : StringOps where
  toLowerCase s := String.mk (s.data.map asciiLowerChar)
  toUpperCase s := String.mk (s.data.map asciiUpperChar)

/-! ## Built-ins used by the component -/

/-- `String.prototype.split(sep)` for a one-character separator, on the
character list: the pieces between consecutive separators, empty pieces
included; the result always has at least one element. -/
def splitChars (sep : Char) : List Char → List (List Char)
  | [] => [[]]
  | c :: cs =>
    if c = sep then [] :: splitChars sep cs
    else
      match splitChars sep cs with
      | [] => [[c]]
      | seg :: rest => (c :: seg) :: rest

/-- `s.split(sep)` for a one-character separator. -/
def split (s : String) (sep : Char) : List String :=
  (splitChars sep s.data).map String.mk

/-- `Array.isArray(value)`. -/
def isArray : Json → Bool
  | .arr _ => true
  | _ => false

/-- `typeof value === "object"`: true of arrays, objects and `null`. -/
def typeofObject : Json → Bool
  | .arr _ => true
  | .obj _ => true
  | .null => true
  | _ => false

/-- Pairs every element with its index, from `i` on, as a property name. -/
def indexed {α : Type} (f : α → Json) : Nat → List α → List (String × Json)
  | _, [] => []
  | i, x :: xs => (toString i, f x) :: indexed f (i + 1) xs

/-- The value of a decimal digit, if the character is one. -/
def digitValue (c : Char) : Option Nat :=
  if 48 ≤ c.toNat ∧ c.toNat ≤ 57 then some (c.toNat - 48) else none

/-- The number written by a list of decimal digits after the digits already
read into `acc`; `none` if some character is not a digit. -/
def decimalValue : List Char → Nat → Option Nat
  | [], acc => some acc
  | c :: cs, acc =>
    match digitValue c with
    | none => none
    | some d => decimalValue cs (10 * acc + d)

/-- The array index a property key denotes, if it is one: a canonical
decimal numeral (digits only, no leading zero except "0" itself) whose value
is below 2^32 - 1. -/
def arrayIndex (key : String) : Option Nat :=
  match key.data with
  | [] => none
  | c :: cs =>
    if c = Char.ofNat 48 ∧ cs ≠ [] then none
    else
      match decimalValue (c :: cs) 0 with
      | none => none
      | some n => if n < 4294967295 then some n else none

/-- Whether the key of an entry is an array index. -/
def hasIndexKey (entry : String × Json) : Bool :=
  (arrayIndex entry.1).isSome

/-- The numeric value of the key of an entry with an array-index key. -/
def indexValue (entry : String × Json) : Nat :=
  (arrayIndex entry.1).getD 0

/-- Inserts an entry before the first one whose index is not smaller. -/
def insertIndexed (entry : String × Json) : List (String × Json) → List (String × Json)
  | [] => [entry]
  | x :: xs =>
    if indexValue entry ≤ indexValue x then entry :: x :: xs
    else x :: insertIndexed entry xs

/-- Entries in ascending order of their index. -/
def sortIndexed : List (String × Json) → List (String × Json)
  | [] => []
  | entry :: rest => insertIndexed entry (sortIndexed rest)

/-- The own-property order of an ordinary object whose entries were
declared in the given order: the entries with an array-index key in
ascending numeric order, then the others in declaration order. -/
def ownEntries (entries : List (String × Json)) : List (String × Json) :=
  sortIndexed (entries.filter hasIndexKey) ++ entries.filter fun e => !hasIndexKey e

/-- `Object.entries(value)`: the own enumerable string-keyed properties, in
own-property order. Arrays and strings expose their indices, numbers and
booleans expose nothing, and `null` raises a `TypeError`. (A string is
indexed here by character rather than by UTF-16 code unit; its entries are
string-valued either way.) -/
def objectEntries : Json → Except JsError (List (String × Json))
  | .obj entries => .ok (ownEntries entries)
  | .arr items => .ok (indexed id 0 items)
  | .str s => .ok (indexed (fun c => Json.str (String.mk [c])) 0 s.data)
  | .num _ => .ok []
  | .bool _ => .ok []
  | .null => .error (.typeError "Cannot convert undefined or null to object")

/-! ## parseSections -/

/-- What the callback of `.map` in `parseSections` returns: a section, an
array of sections, or `null`. -/
inductive Mapped where
  | one (s : Section) : Mapped
  | many (ss : List Section) : Mapped
  | null : Mapped

/-- The callback `([key, value]) => ...` of `parseSections`. -/
def parseEntry (ops : StringOps) (entry : String × Json) : Except JsError Mapped :=
  if isArray entry.2 then
    .ok (.one { title := ops.toUpperCase entry.1, docs := entry.2 })
  else if typeofObject entry.2 then
    match objectEntries entry.2 with
    | .error e => .error e
    | .ok subs =>
      .ok (.many (subs.map fun sub => { title := ops.toUpperCase sub.1, docs := sub.2 }))
  else
    .ok .null

/-- `Array.prototype.map` with a callback that may throw: the first
exception aborts the traversal. -/
def mapEntries (ops : StringOps) : List (String × Json) → Except JsError (List Mapped)
  | [] => .ok []
  | entry :: rest =>
    match parseEntry ops entry with
    | .error e => .error e
    | .ok m =>
      match mapEntries ops rest with
      | .error e => .error e
      | .ok ms => .ok (m :: ms)

/-- `Array.prototype.flat()` (depth one): arrays are spliced in, every other
element is kept. `none` stands for a `null` element. -/
def flat : List Mapped → List (Option Section)
  | [] => []
  | .one s :: rest => some s :: flat rest
  | .many ss :: rest => ss.map some ++ flat rest
  | .null :: rest => none :: flat rest

/-- `Array.prototype.filter(Boolean)`: `null` is falsy, an object is truthy. -/
def filterBoolean : List (Option Section) → List Section
  | [] => []
  | some s :: rest => s :: filterBoolean rest
  | none :: rest => filterBoolean rest

/-- `parseSections(data)`. -/
def parseSections (ops : StringOps) (data : Json) : Except JsError (List Section) :=
  match objectEntries data with
  | .error e => .error e
  | .ok entries =>
    match mapEntries ops entries with
    | .error e => .error e
    | .ok mapped => .ok (filterBoolean (flat mapped))

/-! ## loadPDFs -/

/-- The navigation state `{ level, college, department, semester }`; a field
is a string or `undefined`. -/
structure Selector where
  level : Option String
  college : Option String
  department : Option String
  semester : Option String

/-- `allJSONFiles`: for a path, either no property (`none`) or a loader,
represented by the outcome of calling and awaiting it: the manifest
(`module.default`) or the exception it rejects with. -/
abbrev ManifestStore := String → Option (Except JsError Json)

/-- The three pieces of React state of `PDFViewer`. -/
structure ViewerState where
  sections : List Section
  loading : Bool
  error : Option String

/-- `setSections(v)`. -/
def setSections (v : List Section) (st : ViewerState) : ViewerState :=
  { st with sections := v }

/-- `setLoading(v)`. -/
def setLoading (v : Bool) (st : ViewerState) : ViewerState :=
  { st with loading := v }

/-- `setError(v)`. -/
def setError (v : Option String) (st : ViewerState) : ViewerState :=
  { st with error := v }

/-- `college.toLowerCase()`. -/
def formattedCollege (ops : StringOps) (college : String) : String :=
  ops.toLowerCase college

/-- The template `${semester.toLowerCase()}-semester`. -/
def formattedSemester (ops : StringOps) (semester : String) : String :=
  ops.toLowerCase semester ++ "-semester"

/-- `department.split(" ")[0].toLowerCase()`. -/
def formattedDepartment (ops : StringOps) (department : String) : String :=
  ops.toLowerCase ((split department (Char.ofNat 32)).headD "")

/-- The template literal of `departmentPath`. -/
def departmentPath (ops : StringOps) (level college semester department : String) : String :=
  "/src/JSON/" ++ level ++ "/" ++ formattedCollege ops college ++ "/" ++
    formattedSemester ops semester ++ "/" ++ formattedDepartment ops department ++ ".json"

/-- The template literal of `generalPath`. -/
def generalPath (ops : StringOps) (level college semester : String) : String :=
  "/src/JSON/" ++ level ++ "/" ++ formattedCollege ops college ++ "/" ++
    formattedSemester ops semester ++ "/general.json"

/-- The department block of the `try` body: the accumulator after it. -/
def loadDepartment (ops : StringOps) (allJSONFiles : ManifestStore) (path : String)
    (combinedSections : List Section) : Except JsError (List Section) :=
  match allJSONFiles path with
  | none => .ok combinedSections
  | some loader =>
    match loader with
    | .error e => .error e
    | .ok deptData =>
      match parseSections ops deptData with
      | .error e => .error e
      | .ok deptSections => .ok (combinedSections ++ deptSections)

/-- The general block of the `try` body: the accumulator after it. -/
def loadGeneral (ops : StringOps) (allJSONFiles : ManifestStore) (path : String)
    (combinedSections : List Section) : Except JsError (List Section) :=
  match allJSONFiles path with
  | none => .ok combinedSections
  | some loader =>
    match loader with
    | .error e => .error e
    | .ok generalData =>
      if isArray generalData then
        .ok (combinedSections ++ [{ title := "GENERAL", docs := generalData }])
      else
        match parseSections ops generalData with
        | .error e => .error e
        | .ok generalSections =>
          .ok (combinedSections ++
            generalSections.map fun s => { s with title := "GENERAL - " ++ s.title })

/-- The body of the `try` block: the value handed to `setSections`, or the
exception that reaches `catch`. -/
def tryBody (ops : StringOps) (allJSONFiles : ManifestStore)
    (deptPath genPath : String) : Except JsError (List Section) :=
  match loadDepartment ops allJSONFiles deptPath [] with
  | .error e => .error e
  | .ok afterDept =>
    match loadGeneral ops allJSONFiles genPath afterDept with
    | .error e => .error e
    | .ok combinedSections =>
      if combinedSections.length = 0 then .error (.error "No course materials found.")
      else .ok combinedSections

/-- The statements of `loadPDFs` after the guard, for the four strings. -/
def loadComplete (ops : StringOps) (allJSONFiles : ManifestStore)
    (level college semester department : String) (st : ViewerState) : ViewerState :=
  let deptPath := departmentPath ops level college semester department
  let genPath := generalPath ops level college semester
  let afterTry :=
    match tryBody ops allJSONFiles deptPath genPath with
    | .ok combinedSections => setSections combinedSections st
    | .error _ =>
      setSections []
        (setError (some ("Failed to load course materials. Could not find: " ++ deptPath)) st)
  setLoading false afterTry

/-- `loadPDFs()`: the state of the component once the returned promise has
settled, from the state it was started in. A field is falsy when it is
`undefined` or the empty string. -/
def loadPDFs (ops : StringOps) (allJSONFiles : ManifestStore) (sel : Selector)
    (st : ViewerState) : ViewerState :=
  let st1 := setError none (setLoading true st)
  match sel.level, sel.college, sel.semester, sel.department with
  | some level, some college, some semester, some department =>
    if level = "" ∨ college = "" ∨ semester = "" ∨ department = "" then
      setLoading false (setSections [] st1)
    else
      loadComplete ops allJSONFiles level college semester department st1
  | _, _, _, _ => setLoading false (setSections [] st1)

/-! ## Reference definitions, in the words of the specification -/

/-- The substring of `s` before its first space character, or all of `s`
if it has no space. -/
def beforeFirstSpace (s : String) : String :=
  if Char.ofNat 32 ∈ s.data then String.mk (s.data.take (s.data.indexOf (Char.ofNat 32)))
  else s

/-- The sections one top-level entry stands for: an entry (key, sequence)
gives the single section titled with the upper-cased key and holding the
sequence; an entry (key, nested mapping) gives one section per sub-entry,
titled with the upper-cased sub-key and holding the sub-value; any other
value gives none. -/
def sectionsOfEntry (ops : StringOps) (entry : String × Json) : List Section :=
  match entry.2 with
  | .arr items => [{ title := ops.toUpperCase entry.1, docs := .arr items }]
  | .obj subs => subs.map fun sub => { title := ops.toUpperCase sub.1, docs := sub.2 }
  | _ => []

/-- The sections one top-level entry stands for when the sub-entries of a
nested mapping are taken in own-property order. -/
def enumeratedSectionsOfEntry (ops : StringOps) (entry : String × Json) : List Section :=
  match entry.2 with
  | .arr items => [{ title := ops.toUpperCase entry.1, docs := .arr items }]
  | .obj subs =>
    (ownEntries subs).map fun sub => { title := ops.toUpperCase sub.1, docs := sub.2 }
  | _ => []

/-- The number of sub-entries of a mapping-valued entry (zero otherwise). -/
def subEntryCount (entry : String × Json) : Nat :=
  match entry.2 with
  | .obj subs => subs.length
  | _ => 0

/-- The general-manifest title rule: "GENERAL - " put before the title. -/
def generalTitled (s : Section) : Section :=
  { title := "GENERAL - " ++ s.title, docs := s.docs }

/-- The department lookup yields `ds`: the path is not in the store and
`ds` is empty, or the manifest at the path loads and `parseSections` returns
`ds` for it. -/
def DeptYields (ops : StringOps) (allJSONFiles : ManifestStore) (path : String)
    (ds : List Section) : Prop :=
  (allJSONFiles path = none ∧ ds = []) ∨
    ∃ deptData, allJSONFiles path = some (.ok deptData) ∧ parseSections ops deptData = .ok ds

/-- The general lookup yields `gs`: the path is not in the store and `gs`
is empty; or the manifest loads, is a top-level sequence and `gs` is the
single section "GENERAL" holding it; or the manifest loads, is not a
sequence, and `gs` is what `parseSections` returns for it with every title
put after "GENERAL - ". -/
def GeneralYields (ops : StringOps) (allJSONFiles : ManifestStore) (path : String)
    (gs : List Section) : Prop :=
  (allJSONFiles path = none ∧ gs = []) ∨
    (∃ generalData, allJSONFiles path = some (.ok generalData) ∧ isArray generalData = true ∧
      gs = [{ title := "GENERAL", docs := generalData }]) ∨
    ∃ generalData ps, allJSONFiles path = some (.ok generalData) ∧
      isArray generalData = false ∧ parseSections ops generalData = .ok ps ∧
      gs = ps.map generalTitled

/-! ## Auxiliary definitions -/

/-- The part the two template literals share, up to and excluding the
last "/". -/
def pathStem (ops : StringOps) (level college semester : String) : String :=
  "/src/JSON/" ++ level ++ "/" ++ formattedCollege ops college ++ "/" ++
    formattedSemester ops semester

/-- The sections a value returned by the `.map` callback leaves after
`.flat().filter(Boolean)`. -/
def contribution : Mapped → List Section
  | .one s => [s]
  | .many ss => ss
  | .null => []

/-- A value that is a string, a number or a boolean. -/
def isPrimitive : Json → Bool
  | .str _ => true
  | .num _ => true
  | .bool _ => true
  | _ => false

/-- The outcome of `.map(...).flat().filter(Boolean)` on a list of entries. -/
def collect (ops : StringOps) (entries : List (String × Json)) : Except JsError (List Section) :=
  match mapEntries ops entries with
  | .error e => .error e
  | .ok mapped => .ok (filterBoolean (flat mapped))

/-! ## Sample data -/

/-- The document `{ name: "A", href: "a.pdf" }`. -/
def docA : Json := .obj [("name", .str "A"), ("href", .str "a.pdf")]

/-- The document `{ name: "B", href: "b.pdf" }`. -/
def docB : Json := .obj [("name", .str "B"), ("href", .str "b.pdf")]

/-- A store holding at most the two manifests of the selector ND / Science /
Computer Science / First. -/
def sampleStore (dept general : Option (Except JsError Json)) : ManifestStore :=
  fun path =>
    if path = "/src/JSON/ND/science/first-semester/computer.json" then dept
    else if path = "/src/JSON/ND/science/first-semester/general.json" then general
    else none

/-- The state `PDFViewer` is mounted in. -/
def initialState : ViewerState := { sections := [], loading := true, error := none }

/-! ## Lemmas on `split` -/

theorem splitChars_ne_nil (sep : Char) (l : List Char) : splitChars sep l ≠ [] := by
  cases l with
  | nil => simp [splitChars]
  | cons c cs =>
    unfold splitChars
    split
    · simp
    · split <;> simp

theorem splitChars_of_not_mem (sep : Char) (l : List Char) (h : sep ∉ l) :
    splitChars sep l = [l] := by
  induction l with
  | nil => rfl
  | cons c cs ih =>
    have hc : c ≠ sep := fun e => h (by simp [e])
    have hcs : sep ∉ cs := fun m => h (List.mem_cons_of_mem _ m)
    simp [splitChars, hc, ih hcs]

theorem splitChars_append_sep (sep : Char) (p t : List Char) (h : sep ∉ t) :
    splitChars sep (p ++ sep :: t) = splitChars sep p ++ [t] := by
  induction p with
  | nil => simp [splitChars, splitChars_of_not_mem sep t h]
  | cons c cs ih =>
    by_cases hc : c = sep
    · simp [splitChars, hc, ← ih]
    · have hne := splitChars_ne_nil sep cs
      cases hs : splitChars sep cs with
      | nil => exact absurd hs hne
      | cons seg rest =>
        simp [splitChars, hc, ih, hs]

theorem splitChars_headD (sep : Char) (l : List Char) :
    (splitChars sep l).headD [] = if sep ∈ l then l.take (l.indexOf sep) else l := by
  induction l with
  | nil => simp [splitChars]
  | cons c cs ih =>
    by_cases hc : c = sep
    · subst hc
      simp [splitChars]
    · have hne := splitChars_ne_nil sep cs
      have hc2 : ¬ sep = c := fun e => hc e.symm
      cases hs : splitChars sep cs with
      | nil => exact absurd hs hne
      | cons seg rest =>
        rw [hs] at ih
        simp only [List.headD_cons] at ih
        have h1 : (splitChars sep (c :: cs)).headD [] = c :: seg := by
          simp [splitChars, hc, hs]
        rw [h1, ih]
        by_cases hm : sep ∈ cs
        · simp [hm, hc2, List.indexOf_cons_ne _ hc]
        · simp [hm, hc2]

theorem split_headD (s : String) (sep : Char) :
    (split s sep).headD "" = String.mk ((splitChars sep s.data).headD []) := by
  unfold split
  have hne := splitChars_ne_nil sep s.data
  cases hs : splitChars sep s.data with
  | nil => exact absurd hs hne
  | cons seg rest => simp

theorem formattedDepartment_eq (ops : StringOps) (department : String) :
    formattedDepartment ops department = ops.toLowerCase (beforeFirstSpace department) := by
  unfold formattedDepartment beforeFirstSpace
  rw [split_headD, splitChars_headD]
  split <;> rfl

/-! ## Lemmas on the state machine -/

theorem loadPDFs_of_complete (ops : StringOps) (allJSONFiles : ManifestStore) (st : ViewerState)
    (level college department semester : String)
    (hl : level ≠ "") (hc : college ≠ "") (hd : department ≠ "") (hs : semester ≠ "") :
    loadPDFs ops allJSONFiles
        { level := some level, college := some college, department := some department,
          semester := some semester } st =
      loadComplete ops allJSONFiles level college semester department
        (setError none (setLoading true st)) := by
  simp [loadPDFs, hl, hc, hd, hs]

theorem loadComplete_of_ok (ops : StringOps) (allJSONFiles : ManifestStore) (st : ViewerState)
    (level college department semester : String) (combined : List Section)
    (h : tryBody ops allJSONFiles (departmentPath ops level college semester department)
          (generalPath ops level college semester) = .ok combined) :
    loadComplete ops allJSONFiles level college semester department st =
      { sections := combined, loading := false, error := st.error } := by
  simp [loadComplete, h, setSections, setLoading]

theorem loadComplete_of_error (ops : StringOps) (allJSONFiles : ManifestStore) (st : ViewerState)
    (level college department semester : String) (e : JsError)
    (h : tryBody ops allJSONFiles (departmentPath ops level college semester department)
          (generalPath ops level college semester) = .error e) :
    loadComplete ops allJSONFiles level college semester department st =
      { sections := [], loading := false,
        error := some ("Failed to load course materials. Could not find: " ++
          departmentPath ops level college semester department) } := by
  simp [loadComplete, h, setSections, setLoading, setError]

/-! ## The incomplete selector and the two paths -/

/-- C6: when one of the four selector fields is `undefined`, `loadPDFs`
ends with no sections, no error and `loading` false, whatever the manifest
store is (its loaders may all fail): the store is not consulted. -/
theorem loadPDFs_incomplete_selector (ops : StringOps) (allJSONFiles : ManifestStore)
    (sel : Selector) (st : ViewerState)
    (h : sel.level = none ∨ sel.college = none ∨ sel.department = none ∨ sel.semester = none) :
    loadPDFs ops allJSONFiles sel st = { sections := [], loading := false, error := none } ∧
      ∀ other : ManifestStore, loadPDFs ops other sel st = loadPDFs ops allJSONFiles sel st := by
  have key : ∀ store : ManifestStore,
      loadPDFs ops store sel st = { sections := [], loading := false, error := none } := by
    intro store
    obtain ⟨l, c, d, s⟩ := sel
    simp only at h
    rcases h with h | h | h | h <;> subst h
    · simp [loadPDFs, setSections, setLoading, setError]
    · cases l <;> simp [loadPDFs, setSections, setLoading, setError]
    · cases l <;> cases c <;> cases s <;> simp [loadPDFs, setSections, setLoading, setError]
    · cases l <;> cases c <;> simp [loadPDFs, setSections, setLoading, setError]
  exact ⟨key allJSONFiles, fun other => by rw [key other, key allJSONFiles]⟩

theorem loadPDFs_incomplete_selector_witness :
    loadPDFs asciiOps (fun _ => some (.error (.error "load failed")))
        { level := some "ND", college := none, department := some "Computer Science",
          semester := some "First" }
        { sections := [], loading := true, error := none } =
      { sections := [], loading := false, error := none } :=
  (loadPDFs_incomplete_selector asciiOps _ _ _ (Or.inr (Or.inl rfl))).1

theorem departmentPath_data (ops : StringOps) (level college semester department : String) :
    (departmentPath ops level college semester department).data =
      (pathStem ops level college semester).data ++
        Char.ofNat 47 :: (formattedDepartment ops department ++ ".json").data := by
  have hlit : ("/" : String).data = [Char.ofNat 47] := by decide
  simp [departmentPath, pathStem, String.data_append, hlit]

theorem generalPath_data (ops : StringOps) (level college semester : String) :
    (generalPath ops level college semester).data =
      (pathStem ops level college semester).data ++
        Char.ofNat 47 :: ("general.json" : String).data := by
  have hlit : ("/general.json" : String).data =
      Char.ofNat 47 :: ("general.json" : String).data := by decide
  simp [generalPath, pathStem, String.data_append, hlit]

theorem split_stem_append (stem last : String) (p : String)
    (hp : p.data = stem.data ++ Char.ofNat 47 :: last.data)
    (hlast : Char.ofNat 47 ∉ last.data) :
    split p (Char.ofNat 47) = split stem (Char.ofNat 47) ++ [last] := by
  unfold split
  rw [hp, splitChars_append_sep _ _ _ hlast]
  simp

/-- C7 (as stated) fails: for the department "A/B" the department path
splits on "/" into eight segments and the general path into seven. -/
theorem path_segments_counterexample :
    (split (departmentPath asciiOps "ND" "Science" "First" "A/B") (Char.ofNat 47)).length = 8 ∧
      (split (generalPath asciiOps "ND" "Science" "First") (Char.ofNat 47)).length = 7 ∧
      ¬ (split (departmentPath asciiOps "ND" "Science" "First" "A/B") (Char.ofNat 47)).length =
        (split (generalPath asciiOps "ND" "Science" "First") (Char.ofNat 47)).length := by
  decide

/-- C7 (amended): for a selector with four non-empty fields whose
department token (the lower-cased text before the first space) contains no
"/", the two paths split on "/" into the same number of segments, agree on
every segment but the last, and end in "<department-token>.json" and
"general.json". -/
theorem paths_differ_in_last_segment (ops : StringOps)
    (level college department semester : String)
    (_hl : level ≠ "") (_hc : college ≠ "") (_hd : department ≠ "") (_hs : semester ≠ "")
    (htoken : Char.ofNat 47 ∉ (formattedDepartment ops department).data) :
    (split (departmentPath ops level college semester department) (Char.ofNat 47)).length =
        (split (generalPath ops level college semester) (Char.ofNat 47)).length ∧
      (split (departmentPath ops level college semester department) (Char.ofNat 47)).dropLast =
        (split (generalPath ops level college semester) (Char.ofNat 47)).dropLast ∧
      (split (departmentPath ops level college semester department) (Char.ofNat 47)).getLast? =
        some (formattedDepartment ops department ++ ".json") ∧
      (split (generalPath ops level college semester) (Char.ofNat 47)).getLast? =
        some "general.json" := by
  have hd : Char.ofNat 47 ∉ (formattedDepartment ops department ++ ".json").data := by
    have hj : Char.ofNat 47 ∉ (".json" : String).data := by decide
    simp only [String.data_append, List.mem_append, not_or]
    exact ⟨htoken, hj⟩
  have hg : Char.ofNat 47 ∉ ("general.json" : String).data := by decide
  rw [split_stem_append _ _ _ (departmentPath_data ops level college semester department) hd,
    split_stem_append _ _ _ (generalPath_data ops level college semester) hg]
  simp

theorem paths_differ_in_last_segment_witness :
    (split (departmentPath asciiOps "ND" "Science" "First" "Computer Science")
        (Char.ofNat 47)).dropLast =
      (split (generalPath asciiOps "ND" "Science" "First") (Char.ofNat 47)).dropLast ∧
    (split (departmentPath asciiOps "ND" "Science" "First" "Computer Science")
        (Char.ofNat 47)).getLast? = some "computer.json" :=
  have h := paths_differ_in_last_segment asciiOps "ND" "Science" "Computer Science" "First"
    (by decide) (by decide) (by decide) (by decide) (by decide)
  ⟨h.2.1, h.2.2.1⟩

/-! ## Section flattening -/

theorem filterBoolean_append (l₁ l₂ : List (Option Section)) :
    filterBoolean (l₁ ++ l₂) = filterBoolean l₁ ++ filterBoolean l₂ := by
  induction l₁ with
  | nil => rfl
  | cons x xs ih => cases x <;> simp [filterBoolean, ih]

theorem filterBoolean_map_some (ss : List Section) : filterBoolean (ss.map some) = ss := by
  induction ss with
  | nil => rfl
  | cons x xs ih => simp [filterBoolean, ih]

theorem filterBoolean_flat (ms : List Mapped) :
    filterBoolean (flat ms) = ms.flatMap contribution := by
  induction ms with
  | nil => rfl
  | cons m rest ih =>
    cases m <;>
      simp [flat, filterBoolean, filterBoolean_append, filterBoolean_map_some, contribution, ih,
        List.flatMap_cons]

theorem parseEntry_of_arr (ops : StringOps) (key : String) (items : List Json) :
    parseEntry ops (key, .arr items) =
      .ok (.one { title := ops.toUpperCase key, docs := .arr items }) := by
  simp [parseEntry, isArray]

theorem parseEntry_of_obj (ops : StringOps) (key : String) (subs : List (String × Json)) :
    parseEntry ops (key, .obj subs) =
      .ok (.many ((ownEntries subs).map fun sub =>
        { title := ops.toUpperCase sub.1, docs := sub.2 })) := by
  simp [parseEntry, isArray, typeofObject, objectEntries]

theorem parseEntry_of_null (ops : StringOps) (key : String) :
    parseEntry ops (key, .null) =
      .error (.typeError "Cannot convert undefined or null to object") := by
  simp [parseEntry, isArray, typeofObject, objectEntries]

theorem parseEntry_error_eq (ops : StringOps) (entry : String × Json) (err : JsError)
    (h : parseEntry ops entry = .error err) :
    err = .typeError "Cannot convert undefined or null to object" := by
  obtain ⟨key, value⟩ := entry
  cases value <;> simp_all [parseEntry, isArray, typeofObject, objectEntries]

theorem mapEntries_of_mem_null (ops : StringOps) (entries : List (String × Json))
    (h : ∃ e ∈ entries, e.2 = .null) :
    mapEntries ops entries =
      .error (.typeError "Cannot convert undefined or null to object") := by
  induction entries with
  | nil => simp at h
  | cons x rest ih =>
    simp only [mapEntries]
    cases hx : parseEntry ops x with
    | error err => simp [parseEntry_error_eq ops x err hx]
    | ok m =>
      obtain ⟨e, he, hnull⟩ := h
      rcases List.mem_cons.mp he with rfl | hmem
      · obtain ⟨key, value⟩ := e
        simp only at hnull
        subst hnull
        rw [parseEntry_of_null] at hx
        cases hx
      · simp [ih ⟨e, hmem, hnull⟩]

/-! ## Own-property order -/

theorem insertIndexed_perm (entry : String × Json) (l : List (String × Json)) :
    (insertIndexed entry l).Perm (entry :: l) := by
  induction l with
  | nil => exact List.Perm.refl _
  | cons x xs ih =>
    unfold insertIndexed
    split
    · exact List.Perm.refl _
    · exact (ih.cons x).trans (List.Perm.swap entry x xs)

theorem sortIndexed_perm (l : List (String × Json)) : (sortIndexed l).Perm l := by
  induction l with
  | nil => exact List.Perm.refl _
  | cons x xs ih => exact (insertIndexed_perm x (sortIndexed xs)).trans (ih.cons x)

theorem ownEntries_perm (l : List (String × Json)) : (ownEntries l).Perm l :=
  ((sortIndexed_perm _).append_right _).trans (List.filter_append_perm hasIndexKey l)

theorem ownEntries_of_no_index (l : List (String × Json))
    (h : ∀ e ∈ l, arrayIndex e.1 = none) : ownEntries l = l := by
  have h1 : l.filter hasIndexKey = [] :=
    List.filter_eq_nil_iff.mpr (fun e he => by simp [hasIndexKey, h e he])
  have h2 : (l.filter fun e => !hasIndexKey e) = l :=
    List.filter_eq_self.mpr (fun e he => by simp [hasIndexKey, h e he])
  simp [ownEntries, h1, h2, sortIndexed]

theorem insertIndexed_of_le (entry : String × Json) (l : List (String × Json))
    (h : ∀ x ∈ l, indexValue entry ≤ indexValue x) : insertIndexed entry l = entry :: l := by
  cases l with
  | nil => rfl
  | cons x xs => simp [insertIndexed, h x (List.mem_cons_self _ _)]

theorem sorted_insertIndexed (entry : String × Json) (l : List (String × Json))
    (hs : l.Pairwise fun a b => indexValue a ≤ indexValue b) :
    (insertIndexed entry l).Pairwise fun a b => indexValue a ≤ indexValue b := by
  induction l with
  | nil => simp [insertIndexed]
  | cons x xs ih =>
    obtain ⟨hx, hxs⟩ := List.pairwise_cons.mp hs
    unfold insertIndexed
    split
    · rename_i hle
      refine List.pairwise_cons.mpr ⟨?_, hs⟩
      intro y hy
      rcases List.mem_cons.mp hy with rfl | hy
      · exact hle
      · exact Nat.le_trans hle (hx y hy)
    · rename_i hle
      refine List.pairwise_cons.mpr ⟨?_, ih hxs⟩
      intro y hy
      rcases List.mem_cons.mp ((insertIndexed_perm entry xs).mem_iff.mp hy) with rfl | hy
      · omega
      · exact hx y hy

theorem sorted_sortIndexed (l : List (String × Json)) :
    (sortIndexed l).Pairwise fun a b => indexValue a ≤ indexValue b := by
  induction l with
  | nil => simp [sortIndexed]
  | cons x xs ih => exact sorted_insertIndexed x _ ih

theorem filter_insertIndexed (p : String × Json → Bool) (entry : String × Json)
    (l : List (String × Json)) (hs : l.Pairwise fun a b => indexValue a ≤ indexValue b) :
    (insertIndexed entry l).filter p =
      if p entry then insertIndexed entry (l.filter p) else l.filter p := by
  induction l with
  | nil => by_cases hp : p entry <;> simp [insertIndexed, hp]
  | cons x xs ih =>
    obtain ⟨hx, hxs⟩ := List.pairwise_cons.mp hs
    by_cases hle : indexValue entry ≤ indexValue x
    · have h1 : insertIndexed entry (x :: xs) = entry :: x :: xs := by simp [insertIndexed, hle]
      rw [h1]
      by_cases hp : p entry
      · have h2 : insertIndexed entry ((x :: xs).filter p) = entry :: (x :: xs).filter p := by
          apply insertIndexed_of_le
          intro y hy
          rcases List.mem_cons.mp (List.mem_filter.mp hy).1 with rfl | hy
          · exact hle
          · exact Nat.le_trans hle (hx y hy)
        rw [if_pos hp, h2, List.filter_cons_of_pos hp]
      · rw [if_neg hp, List.filter_cons_of_neg hp]
    · have h1 : insertIndexed entry (x :: xs) = x :: insertIndexed entry xs := by
        simp [insertIndexed, hle]
      rw [h1]
      by_cases hpx : p x
      · rw [List.filter_cons_of_pos hpx, ih hxs, List.filter_cons_of_pos hpx]
        by_cases hp : p entry
        · simp [hp, insertIndexed, hle]
        · simp [hp]
      · rw [List.filter_cons_of_neg hpx, ih hxs, List.filter_cons_of_neg hpx]

theorem sortIndexed_filter (p : String × Json → Bool) (l : List (String × Json)) :
    sortIndexed (l.filter p) = (sortIndexed l).filter p := by
  induction l with
  | nil => rfl
  | cons x xs ih =>
    rw [show sortIndexed (x :: xs) = insertIndexed x (sortIndexed xs) from rfl,
      filter_insertIndexed p x _ (sorted_sortIndexed xs)]
    by_cases hp : p x
    · rw [List.filter_cons_of_pos hp, if_pos hp, ← ih]
      rfl
    · rw [List.filter_cons_of_neg hp, if_neg hp, ih]

theorem ownEntries_filter (p : String × Json → Bool) (l : List (String × Json)) :
    ownEntries (l.filter p) = (ownEntries l).filter p := by
  have hc : ∀ q : String × Json → Bool, (l.filter p).filter q = (l.filter q).filter p := by
    intro q
    simp [List.filter_filter, Bool.and_comm]
  simp only [ownEntries, List.filter_append, hc, sortIndexed_filter]

/-! ## Section flattening: the mapping shapes -/

theorem mapEntries_of_shapes (ops : StringOps) (entries : List (String × Json))
    (h : ∀ e ∈ entries, (∃ items, e.2 = .arr items) ∨ (∃ subs, e.2 = .obj subs)) :
    ∃ ms, mapEntries ops entries = .ok ms ∧
      ms.flatMap contribution = entries.flatMap (enumeratedSectionsOfEntry ops) := by
  induction entries with
  | nil => exact ⟨[], rfl, rfl⟩
  | cons e rest ih =>
    obtain ⟨ms, hms, hflat⟩ := ih (fun x hx => h x (List.mem_cons_of_mem _ hx))
    obtain ⟨key, value⟩ := e
    rcases h (key, value) (List.mem_cons_self _ _) with ⟨items, hv⟩ | ⟨subs, hv⟩
    · simp only at hv
      subst hv
      refine ⟨.one { title := ops.toUpperCase key, docs := .arr items } :: ms,
        by simp [mapEntries, parseEntry_of_arr, hms], ?_⟩
      simp [List.flatMap_cons, contribution, enumeratedSectionsOfEntry, hflat]
    · simp only at hv
      subst hv
      refine ⟨.many ((ownEntries subs).map fun sub =>
          { title := ops.toUpperCase sub.1, docs := sub.2 }) :: ms,
        by simp [mapEntries, parseEntry_of_obj, hms], ?_⟩
      simp [List.flatMap_cons, contribution, enumeratedSectionsOfEntry, hflat]

theorem length_flatMap_enumerated (ops : StringOps) (entries : List (String × Json)) :
    (entries.flatMap (enumeratedSectionsOfEntry ops)).length =
      entries.countP (fun e => isArray e.2) + (entries.map subEntryCount).sum := by
  induction entries with
  | nil => rfl
  | cons e rest ih =>
    obtain ⟨key, value⟩ := e
    cases value <;>
      simp [List.flatMap_cons, enumeratedSectionsOfEntry, subEntryCount, isArray, ih,
        List.countP_cons, (ownEntries_perm _).length_eq] <;>
      omega

theorem flatMap_enumerated_of_no_index (ops : StringOps) (entries : List (String × Json))
    (h : ∀ e ∈ entries, ∀ subs, e.2 = .obj subs → ∀ s ∈ subs, arrayIndex s.1 = none) :
    entries.flatMap (enumeratedSectionsOfEntry ops) = entries.flatMap (sectionsOfEntry ops) := by
  induction entries with
  | nil => rfl
  | cons e rest ih =>
    have hrest := ih (fun x hx => h x (List.mem_cons_of_mem _ hx))
    have he := h e (List.mem_cons_self _ _)
    obtain ⟨key, value⟩ := e
    simp only [List.flatMap_cons, hrest]
    congr 1
    cases value <;> simp [enumeratedSectionsOfEntry, sectionsOfEntry]
    rename_i subs
    rw [ownEntries_of_no_index subs (he subs rfl)]

/-- C4 (as stated) fails: for the mapping declared as "b", "2", "1" (each
with an empty sequence) `parseSections` returns the sections titled "1",
"2", "B", which is not the concatenation in the manifest's entry order. -/
theorem parseSections_entry_order_counterexample :
    parseSections asciiOps (.obj [("b", .arr []), ("2", .arr []), ("1", .arr [])]) =
        .ok [{ title := "1", docs := .arr [] }, { title := "2", docs := .arr [] },
             { title := "B", docs := .arr [] }] ∧
      parseSections asciiOps (.obj [("b", .arr []), ("2", .arr []), ("1", .arr [])]) ≠
        .ok ([("b", Json.arr []), ("2", Json.arr []), ("1", Json.arr [])].flatMap
          (sectionsOfEntry asciiOps)) := by
  refine ⟨rfl, ?_⟩
  intro h
  have h2 : (["1", "2", "B"] : List String) = ["B", "2", "1"] :=
    congrArg (fun r => match r with
      | Except.ok l => l.map Section.title
      | Except.error _ => []) h
  exact absurd h2 (by decide)

/-- C4 (amended): for a manifest that is a mapping whose top-level values
are all sequences or nested mappings, `parseSections` returns the
concatenation of the sections of each entry (one section with the
upper-cased key and the sequence itself, or one section per sub-entry with
the upper-cased sub-key and the sub-value), the entries and the sub-entries
being taken in own-property order: array-index keys first in ascending
numeric order, then the other keys in the manifest's entry order. The number
of sections is the number of sequence-valued entries plus the total number
of sub-entries, and when no key or sub-key is an array index the order is
the manifest's entry order. -/
theorem parseSections_mapping_enumerated (ops : StringOps) (entries : List (String × Json))
    (h : ∀ e ∈ entries, (∃ items, e.2 = .arr items) ∨ (∃ subs, e.2 = .obj subs)) :
    parseSections ops (.obj entries) =
        .ok ((ownEntries entries).flatMap (enumeratedSectionsOfEntry ops)) ∧
      ((ownEntries entries).flatMap (enumeratedSectionsOfEntry ops)).length =
        entries.countP (fun e => isArray e.2) + (entries.map subEntryCount).sum ∧
      ((∀ e ∈ entries, arrayIndex e.1 = none ∧
          ∀ subs, e.2 = .obj subs → ∀ s ∈ subs, arrayIndex s.1 = none) →
        parseSections ops (.obj entries) = .ok (entries.flatMap (sectionsOfEntry ops))) := by
  have hperm := ownEntries_perm entries
  obtain ⟨ms, hms, hflat⟩ := mapEntries_of_shapes ops (ownEntries entries)
    (fun e he => h e (hperm.mem_iff.mp he))
  have hparse : parseSections ops (.obj entries) =
      .ok ((ownEntries entries).flatMap (enumeratedSectionsOfEntry ops)) := by
    simp [parseSections, objectEntries, hms, filterBoolean_flat, hflat]
  refine ⟨hparse, ?_, ?_⟩
  · rw [(hperm.flatMap_right (enumeratedSectionsOfEntry ops)).length_eq]
    exact length_flatMap_enumerated ops entries
  · intro hno
    rw [hparse, ownEntries_of_no_index entries (fun e he => (hno e he).1),
      flatMap_enumerated_of_no_index ops entries (fun e he => (hno e he).2)]

theorem parseSections_mapping_enumerated_witness :
    parseSections asciiOps
        (.obj [("math", .arr [docA]), ("200", .arr [docB]),
               ("physics", .obj [("phy102", .arr [.null]), ("101", .arr [])])]) =
      .ok [{ title := "200", docs := .arr [docB] },
           { title := "MATH", docs := .arr [docA] },
           { title := "101", docs := .arr [] },
           { title := "PHY102", docs := .arr [.null] }] :=
  (parseSections_mapping_enumerated asciiOps
    [("math", .arr [docA]), ("200", .arr [docB]),
     ("physics", .obj [("phy102", .arr [.null]), ("101", .arr [])])]
    (by
      intro e he
      simp only [List.mem_cons, List.mem_singleton, List.not_mem_nil, or_false] at he
      rcases he with rfl | rfl | rfl
      · exact Or.inl ⟨_, rfl⟩
      · exact Or.inl ⟨_, rfl⟩
      · exact Or.inr ⟨_, rfl⟩)).1

/-! ## Section flattening: the other values -/

/-- C9 (code at the failing input): a top-level entry whose value is `null`
passes the test `typeof value === "object"`, so `Object.entries(null)` is
called and `parseSections` raises a `TypeError`, whereas the same manifest
without that entry is parsed without error. -/
theorem parseSections_null_entry_raises :
    (∀ (ops : StringOps) (key : String) (rest : List (String × Json)),
        parseSections ops (.obj ((key, .null) :: rest)) =
          .error (.typeError "Cannot convert undefined or null to object")) ∧
      parseSections asciiOps (.obj [("a", .null), ("math", .arr [])]) =
        .error (.typeError "Cannot convert undefined or null to object") ∧
      parseSections asciiOps (.obj [("math", .arr [])]) =
        .ok [{ title := "MATH", docs := .arr [] }] := by
  refine ⟨?_, rfl, rfl⟩
  intro ops key rest
  have hmem : ∃ e ∈ ownEntries ((key, Json.null) :: rest), e.2 = .null :=
    ⟨(key, .null), (ownEntries_perm _).mem_iff.mpr (List.mem_cons_self _ _), rfl⟩
  simp [parseSections, objectEntries, mapEntries_of_mem_null ops _ hmem]

theorem collect_cons (ops : StringOps) (entry : String × Json) (rest : List (String × Json)) :
    collect ops (entry :: rest) =
      match parseEntry ops entry with
      | .error e => .error e
      | .ok m =>
        match collect ops rest with
        | .error e => .error e
        | .ok ss => .ok (contribution m ++ ss) := by
  unfold collect
  simp only [mapEntries]
  cases parseEntry ops entry with
  | error e => rfl
  | ok m =>
    cases mapEntries ops rest with
    | error e => rfl
    | ok ms => simp [filterBoolean_flat, List.flatMap_cons]

theorem parseEntry_of_primitive (ops : StringOps) (key : String) (value : Json)
    (h : isPrimitive value = true) : parseEntry ops (key, value) = .ok .null := by
  cases value <;> simp_all [isPrimitive, parseEntry, isArray, typeofObject]

theorem collect_filter_primitives (ops : StringOps) (entries : List (String × Json)) :
    collect ops entries = collect ops (entries.filter fun e => !isPrimitive e.2) := by
  induction entries with
  | nil => rfl
  | cons e rest ih =>
    obtain ⟨key, value⟩ := e
    by_cases h : isPrimitive value = true
    · rw [List.filter_cons_of_neg (by simp [h]), ← ih, collect_cons,
        parseEntry_of_primitive ops key value h]
      cases collect ops rest <;> simp [contribution]
    · rw [List.filter_cons_of_pos (by simp [h]), collect_cons, collect_cons, ih]

/-- Entries whose value is a string, a number or a boolean contribute
nothing and raise nothing: `parseSections` returns what it returns for the
manifest without them. -/
theorem parseSections_drops_primitives (ops : StringOps) (entries : List (String × Json)) :
    parseSections ops (.obj entries) =
      parseSections ops (.obj (entries.filter fun e => !isPrimitive e.2)) := by
  have hp : ∀ l, parseSections ops (.obj l) = collect ops (ownEntries l) := fun l => rfl
  rw [hp, hp, ownEntries_filter, ← collect_filter_primitives]

/-! ## The load and merge state machine -/

theorem tryBody_of_yields (ops : StringOps) (allJSONFiles : ManifestStore)
    (deptPath genPath : String) (ds gs : List Section)
    (hdept : DeptYields ops allJSONFiles deptPath ds)
    (hgen : GeneralYields ops allJSONFiles genPath gs) :
    tryBody ops allJSONFiles deptPath genPath =
      if (ds ++ gs).length = 0 then .error (.error "No course materials found.")
      else .ok (ds ++ gs) := by
  have h1 : loadDepartment ops allJSONFiles deptPath [] = .ok ds := by
    rcases hdept with ⟨hn, rfl⟩ | ⟨d, hd, hp⟩
    · simp [loadDepartment, hn]
    · simp [loadDepartment, hd, hp]
  have h2 : loadGeneral ops allJSONFiles genPath ds = .ok (ds ++ gs) := by
    rcases hgen with ⟨hn, rfl⟩ | ⟨g, hg, ha, rfl⟩ | ⟨g, ps, hg, ha, hp, rfl⟩
    · simp [loadGeneral, hn]
    · simp [loadGeneral, hg, ha]
    · simp [loadGeneral, hg, ha, hp, generalTitled]
  simp only [tryBody, h1, h2]

theorem loadPDFs_of_yields (ops : StringOps) (allJSONFiles : ManifestStore) (st : ViewerState)
    (level college department semester : String)
    (hl : level ≠ "") (hc : college ≠ "") (hd : department ≠ "") (hs : semester ≠ "")
    (ds gs : List Section)
    (hdept : DeptYields ops allJSONFiles
      (departmentPath ops level college semester department) ds)
    (hgen : GeneralYields ops allJSONFiles (generalPath ops level college semester) gs) :
    loadPDFs ops allJSONFiles
        { level := some level, college := some college, department := some department,
          semester := some semester } st =
      if (ds ++ gs).length = 0 then
        { sections := [], loading := false,
          error := some ("Failed to load course materials. Could not find: " ++
            departmentPath ops level college semester department) }
      else { sections := ds ++ gs, loading := false, error := none } := by
  rw [loadPDFs_of_complete ops allJSONFiles st level college department semester hl hc hd hs]
  have ht := tryBody_of_yields ops allJSONFiles _ _ ds gs hdept hgen
  by_cases hz : (ds ++ gs).length = 0
  · rw [if_pos hz] at ht ⊢
    exact loadComplete_of_error ops allJSONFiles _ level college department semester _ ht
  · rw [if_neg hz] at ht ⊢
    rw [loadComplete_of_ok ops allJSONFiles _ level college department semester _ ht]
    rfl

/-- C1: for a selector with four non-empty fields, the `departmentPath`
computed by `loadPDFs` is "/src/JSON/" + level + "/" + lower(college) + "/" +
lower(semester) + "-semester/" + lower(department up to its first space) +
".json", the level being used verbatim (it is the path reported in the
error message when the store is empty); the selector ND / Science /
Computer Science / First gives
"/src/JSON/ND/science/first-semester/computer.json". -/
theorem departmentPath_formula (ops : StringOps) (level college department semester : String)
    (hl : level ≠ "") (hc : college ≠ "") (hd : department ≠ "") (hs : semester ≠ "") :
    departmentPath ops level college semester department =
        "/src/JSON/" ++ level ++ "/" ++ ops.toLowerCase college ++ "/" ++
          ops.toLowerCase semester ++ "-semester/" ++
          ops.toLowerCase (beforeFirstSpace department) ++ ".json" ∧
      (∀ st : ViewerState,
        (loadPDFs ops (fun _ => none)
          { level := some level, college := some college, department := some department,
            semester := some semester } st).error =
          some ("Failed to load course materials. Could not find: " ++
            ("/src/JSON/" ++ level ++ "/" ++ ops.toLowerCase college ++ "/" ++
              ops.toLowerCase semester ++ "-semester/" ++
              ops.toLowerCase (beforeFirstSpace department) ++ ".json"))) ∧
      departmentPath asciiOps "ND" "Science" "First" "Computer Science" =
        "/src/JSON/ND/science/first-semester/computer.json" := by
  have hlit : "-semester" ++ "/" = "-semester/" := by decide
  have hpath : departmentPath ops level college semester department =
      "/src/JSON/" ++ level ++ "/" ++ ops.toLowerCase college ++ "/" ++
        ops.toLowerCase semester ++ "-semester/" ++
        ops.toLowerCase (beforeFirstSpace department) ++ ".json" := by
    simp only [departmentPath, formattedCollege, formattedSemester, formattedDepartment_eq,
      String.append_assoc]
    rw [← String.append_assoc "-semester" "/", hlit]
  refine ⟨hpath, ?_, by decide⟩
  intro st
  have h := loadPDFs_of_yields ops (fun _ => none) st level college department semester
    hl hc hd hs [] [] (Or.inl ⟨rfl, rfl⟩) (Or.inl ⟨rfl, rfl⟩)
  simp only [List.append_nil, List.length_nil, if_true] at h
  rw [h, hpath]

theorem departmentPath_formula_witness :
    departmentPath asciiOps "ND" "Science" "First" "Computer Science" =
        "/src/JSON/" ++ "ND" ++ "/" ++ asciiOps.toLowerCase "Science" ++ "/" ++
          asciiOps.toLowerCase "First" ++ "-semester/" ++
          asciiOps.toLowerCase (beforeFirstSpace "Computer Science") ++ ".json" :=
  (departmentPath_formula asciiOps "ND" "Science" "Computer Science" "First"
    (by decide) (by decide) (by decide) (by decide)).1

/-- C2: for a complete selector, when the department lookup yields `ds`
(none if the path is absent) and the general lookup yields `gs` (none if the
path is absent) and at least one section results, `loadPDFs` sets exactly
`ds` followed by `gs`, nothing dropped or merged, so the length is the sum
of the two lengths; no error is set and `loading` is false. -/
theorem loadPDFs_department_then_general (ops : StringOps) (allJSONFiles : ManifestStore)
    (st : ViewerState) (level college department semester : String)
    (hl : level ≠ "") (hc : college ≠ "") (hd : department ≠ "") (hs : semester ≠ "")
    (ds gs : List Section)
    (hdept : DeptYields ops allJSONFiles
      (departmentPath ops level college semester department) ds)
    (hgen : GeneralYields ops allJSONFiles (generalPath ops level college semester) gs)
    (hne : ds ++ gs ≠ []) :
    loadPDFs ops allJSONFiles
        { level := some level, college := some college, department := some department,
          semester := some semester } st =
        { sections := ds ++ gs, loading := false, error := none } ∧
      (loadPDFs ops allJSONFiles
        { level := some level, college := some college, department := some department,
          semester := some semester } st).sections.length = ds.length + gs.length := by
  have hz : ¬ (ds ++ gs).length = 0 := fun h => hne (List.length_eq_zero.mp h)
  have h := loadPDFs_of_yields ops allJSONFiles st level college department semester
    hl hc hd hs ds gs hdept hgen
  rw [if_neg hz] at h
  rw [h]
  exact ⟨rfl, List.length_append _ _⟩

theorem loadPDFs_department_then_general_witness :
    loadPDFs asciiOps
        (sampleStore (some (.ok (.obj [("math", .arr [docA])]))) (some (.ok (.arr [docB]))))
        { level := some "ND", college := some "Science", department := some "Computer Science",
          semester := some "First" } initialState =
      { sections := [{ title := "MATH", docs := .arr [docA] },
                     { title := "GENERAL", docs := .arr [docB] }],
        loading := false, error := none } :=
  (loadPDFs_department_then_general asciiOps
    (sampleStore (some (.ok (.obj [("math", .arr [docA])]))) (some (.ok (.arr [docB]))))
    initialState "ND" "Science" "Computer Science" "First"
    (by decide) (by decide) (by decide) (by decide)
    [{ title := "MATH", docs := .arr [docA] }] [{ title := "GENERAL", docs := .arr [docB] }]
    (Or.inr ⟨_, rfl, rfl⟩) (Or.inr (Or.inl ⟨_, rfl, rfl, rfl⟩)) (by simp)).1

theorem generalTitled_title_starts (ps : List Section) :
    ∀ s ∈ ps.map generalTitled, ("GENERAL - " : String).data <+: s.title.data := by
  intro s hs
  obtain ⟨p, _, rfl⟩ := List.mem_map.mp hs
  simp [generalTitled, String.data_append]

/-- C3: for a complete selector whose general manifest is loaded (the
department lookup having yielded `ds`): if the manifest is a top-level
sequence it contributes exactly the one section titled "GENERAL" whose docs
are the whole sequence; if it is not a sequence (a mapping in particular),
the sections it contributes are those of `parseSections` with "GENERAL - "
put before each title, so each title starts with "GENERAL - "; and if
`parseSections` raises on it, no section is set at all. -/
theorem loadPDFs_general_titles (ops : StringOps) (allJSONFiles : ManifestStore)
    (st : ViewerState) (level college department semester : String)
    (hl : level ≠ "") (hc : college ≠ "") (hd : department ≠ "") (hs : semester ≠ "")
    (ds : List Section) (generalData : Json)
    (hdept : DeptYields ops allJSONFiles
      (departmentPath ops level college semester department) ds)
    (hgen : allJSONFiles (generalPath ops level college semester) = some (.ok generalData)) :
    (isArray generalData = true →
        (loadPDFs ops allJSONFiles
          { level := some level, college := some college, department := some department,
            semester := some semester } st).sections =
          ds ++ [{ title := "GENERAL", docs := generalData }]) ∧
      (isArray generalData = false → ∀ ps, parseSections ops generalData = .ok ps →
        (loadPDFs ops allJSONFiles
          { level := some level, college := some college, department := some department,
            semester := some semester } st).sections = ds ++ ps.map generalTitled ∧
        ∀ s ∈ ps.map generalTitled, ("GENERAL - " : String).data <+: s.title.data) ∧
      (isArray generalData = false → ∀ e, parseSections ops generalData = .error e →
        (loadPDFs ops allJSONFiles
          { level := some level, college := some college, department := some department,
            semester := some semester } st).sections = []) := by
  refine ⟨?_, ?_, ?_⟩
  · intro ha
    have h := loadPDFs_of_yields ops allJSONFiles st level college department semester
      hl hc hd hs ds [{ title := "GENERAL", docs := generalData }] hdept
      (Or.inr (Or.inl ⟨generalData, hgen, ha, rfl⟩))
    rw [h]
    simp
  · intro ha ps hp
    refine ⟨?_, generalTitled_title_starts ps⟩
    have h := loadPDFs_of_yields ops allJSONFiles st level college department semester
      hl hc hd hs ds (ps.map generalTitled) hdept
      (Or.inr (Or.inr ⟨generalData, ps, hgen, ha, hp, rfl⟩))
    rw [h]
    split
    · rename_i hz
      exact (List.length_eq_zero.mp hz).symm
    · rfl
  · intro ha e hp
    rw [loadPDFs_of_complete ops allJSONFiles st level college department semester hl hc hd hs]
    have h1 : loadDepartment ops allJSONFiles
        (departmentPath ops level college semester department) [] = .ok ds := by
      rcases hdept with ⟨hn, rfl⟩ | ⟨d, hd', hp'⟩
      · simp [loadDepartment, hn]
      · simp [loadDepartment, hd', hp']
    have ht : tryBody ops allJSONFiles (departmentPath ops level college semester department)
        (generalPath ops level college semester) = .error e := by
      simp [tryBody, h1, loadGeneral, hgen, ha, hp]
    rw [loadComplete_of_error ops allJSONFiles _ level college department semester e ht]

theorem loadPDFs_general_titles_witness :
    (loadPDFs asciiOps (sampleStore none (some (.ok (.obj [("gst", .arr [docB])]))))
        { level := some "ND", college := some "Science", department := some "Computer Science",
          semester := some "First" } initialState).sections =
      [{ title := "GENERAL - GST", docs := .arr [docB] }] :=
  ((loadPDFs_general_titles asciiOps (sampleStore none (some (.ok (.obj [("gst", .arr [docB])]))))
    initialState "ND" "Science" "Computer Science" "First"
    (by decide) (by decide) (by decide) (by decide) [] (.obj [("gst", .arr [docB])])
    (Or.inl ⟨rfl, rfl⟩) rfl).2.1 rfl [{ title := "GST", docs := .arr [docB] }] rfl).1

/-- C5: for a complete selector, when the accumulator is empty after both
lookups (each path is absent or its manifest yields no section; in
particular when both are absent), `loadPDFs` ends in the error state: the
message is set and contains the attempted department path, and there are no
sections. -/
theorem loadPDFs_nothing_found (ops : StringOps) (allJSONFiles : ManifestStore)
    (st : ViewerState) (level college department semester : String)
    (hl : level ≠ "") (hc : college ≠ "") (hd : department ≠ "") (hs : semester ≠ "")
    (hdept : DeptYields ops allJSONFiles
      (departmentPath ops level college semester department) [])
    (hgen : GeneralYields ops allJSONFiles (generalPath ops level college semester) []) :
    loadPDFs ops allJSONFiles
        { level := some level, college := some college, department := some department,
          semester := some semester } st =
        { sections := [], loading := false,
          error := some ("Failed to load course materials. Could not find: " ++
            departmentPath ops level college semester department) } ∧
      ∃ before after : String,
        (loadPDFs ops allJSONFiles
          { level := some level, college := some college, department := some department,
            semester := some semester } st).error =
          some (before ++ departmentPath ops level college semester department ++ after) := by
  have h := loadPDFs_of_yields ops allJSONFiles st level college department semester
    hl hc hd hs [] [] hdept hgen
  simp only [List.append_nil, List.length_nil, if_true] at h
  refine ⟨h, "Failed to load course materials. Could not find: ", "", ?_⟩
  rw [h]
  simp

theorem loadPDFs_nothing_found_witness :
    loadPDFs asciiOps (fun _ => none)
        { level := some "ND", college := some "Science", department := some "Computer Science",
          semester := some "First" } initialState =
      { sections := [], loading := false,
        error := some ("Failed to load course materials. Could not find: " ++
          "/src/JSON/ND/science/first-semester/computer.json") } :=
  (loadPDFs_nothing_found asciiOps (fun _ => none) initialState
    "ND" "Science" "Computer Science" "First"
    (by decide) (by decide) (by decide) (by decide)
    (Or.inl ⟨rfl, rfl⟩) (Or.inl ⟨rfl, rfl⟩)).1

/-- C8: for a complete selector, when a present manifest fails to load or
`parseSections` raises on it (the department one, or the general one after
the department lookup yielded some `ds`), `loadPDFs` still ends in a state:
the error is "Failed to load course materials. Could not find: " followed by
the department path, the sections are empty (those of the department are
discarded) and `loading` is false. -/
theorem loadPDFs_exception_caught (ops : StringOps) (allJSONFiles : ManifestStore)
    (st : ViewerState) (level college department semester : String)
    (hl : level ≠ "") (hc : college ≠ "") (hd : department ≠ "") (hs : semester ≠ "")
    (hfail :
      (∃ e, allJSONFiles (departmentPath ops level college semester department) =
        some (.error e)) ∨
      (∃ deptData e, allJSONFiles (departmentPath ops level college semester department) =
        some (.ok deptData) ∧ parseSections ops deptData = .error e) ∨
      (∃ ds, DeptYields ops allJSONFiles
          (departmentPath ops level college semester department) ds ∧
        ((∃ e, allJSONFiles (generalPath ops level college semester) = some (.error e)) ∨
          ∃ generalData e, allJSONFiles (generalPath ops level college semester) =
            some (.ok generalData) ∧ isArray generalData = false ∧
            parseSections ops generalData = .error e))) :
    loadPDFs ops allJSONFiles
        { level := some level, college := some college, department := some department,
          semester := some semester } st =
      { sections := [], loading := false,
        error := some ("Failed to load course materials. Could not find: " ++
          departmentPath ops level college semester department) } := by
  rw [loadPDFs_of_complete ops allJSONFiles st level college department semester hl hc hd hs]
  have ht : ∃ e, tryBody ops allJSONFiles (departmentPath ops level college semester department)
      (generalPath ops level college semester) = .error e := by
    rcases hfail with ⟨e, h⟩ | ⟨d, e, h, hp⟩ | ⟨ds, hdept, hg⟩
    · exact ⟨e, by simp [tryBody, loadDepartment, h]⟩
    · exact ⟨e, by simp [tryBody, loadDepartment, h, hp]⟩
    · have h1 : loadDepartment ops allJSONFiles
          (departmentPath ops level college semester department) [] = .ok ds := by
        rcases hdept with ⟨hn, rfl⟩ | ⟨d, hd', hp'⟩
        · simp [loadDepartment, hn]
        · simp [loadDepartment, hd', hp']
      rcases hg with ⟨e, h⟩ | ⟨g, e, h, ha, hp⟩
      · exact ⟨e, by simp [tryBody, h1, loadGeneral, h]⟩
      · exact ⟨e, by simp [tryBody, h1, loadGeneral, h, ha, hp]⟩
  obtain ⟨e, ht⟩ := ht
  exact loadComplete_of_error ops allJSONFiles _ level college department semester e ht

theorem loadPDFs_exception_caught_witness :
    loadPDFs asciiOps
        (sampleStore (some (.ok (.obj [("math", .arr [docA])])))
          (some (.error (.error "Failed to fetch dynamically imported module"))))
        { level := some "ND", college := some "Science", department := some "Computer Science",
          semester := some "First" } initialState =
      { sections := [], loading := false,
        error := some ("Failed to load course materials. Could not find: " ++
          "/src/JSON/ND/science/first-semester/computer.json") } :=
  loadPDFs_exception_caught asciiOps
    (sampleStore (some (.ok (.obj [("math", .arr [docA])])))
      (some (.error (.error "Failed to fetch dynamically imported module"))))
    initialState "ND" "Science" "Computer Science" "First"
    (by decide) (by decide) (by decide) (by decide)
    (Or.inr (Or.inr ⟨[{ title := "MATH", docs := .arr [docA] }], Or.inr ⟨_, rfl, rfl⟩,
      Or.inl ⟨_, rfl⟩⟩))

/-- C10 (code at the failing input): a department manifest that is the flat
sequence `[{ name: "A", href: "a.pdf" }]` goes through `parseSections`,
which treats the document as a nested mapping: the result holds the
sections "NAME" and "HREF" whose docs are the strings "A" and "a.pdf", not
sequences of documents. The same manifest at the general path gives the one
section "GENERAL" holding the sequence. -/
theorem loadPDFs_flat_department_manifest :
    loadPDFs asciiOps (sampleStore (some (.ok (.arr [docA]))) none)
        { level := some "ND", college := some "Science", department := some "Computer Science",
          semester := some "First" } initialState =
        { sections := [{ title := "NAME", docs := .str "A" },
                       { title := "HREF", docs := .str "a.pdf" }],
          loading := false, error := none } ∧
      ((loadPDFs asciiOps (sampleStore (some (.ok (.arr [docA]))) none)
        { level := some "ND", college := some "Science", department := some "Computer Science",
          semester := some "First" } initialState).sections.map fun s => isArray s.docs) =
        [false, false] ∧
      loadPDFs asciiOps (sampleStore none (some (.ok (.arr [docA]))))
        { level := some "ND", college := some "Science", department := some "Computer Science",
          semester := some "First" } initialState =
        { sections := [{ title := "GENERAL", docs := .arr [docA] }],
          loading := false, error := none } :=
  ⟨rfl, rfl, rfl⟩

end PDFHouse
